import Mathlib

/-!
# Verification of the roseblox `GameSystems` orchestrator

Shallow embedding of the engine orchestrator class `GameSystems`
(`src/index` module, the file holding `registerResource`, `registerSetup`,
`registerSystem`, `init`, `update`, `render`, `getResource`, `addResource`,
`on`, `off`, `emit`, `_getDependencies`, `_runSetupSystem`).

Modelling conventions:
* All JavaScript values handled opaquely by the orchestrator (the game config,
  resource instances, the ECS world, event payloads) are drawn from a single
  type parameter `α`, mirroring the untyped JS value universe.
* A JS `Map` is modelled as an insertion-ordered association list
  (`List (String × β)`); `Map.set` updates an existing key in place, keeping
  its position, and appends otherwise.
* `async`/`await` sequencing is pure sequencing: every awaited callback is a
  function returning `Except EngineError _`, where `Except.error` models a
  thrown exception or a rejected promise.
* Mutation of the orchestrator object is explicit state passing on the
  `GameSystems` record.  A method that can throw returns the state reached
  together with an `Option EngineError` (`some` = the method threw; the state
  returned is the object state at the moment of the throw, as in JS).
* The observable side effects the claims talk about (which factory / setup
  `init` / runtime `update` functions get invoked, in which order, and what is
  logged or drawn) are collected in an event trace (`Ev`).
* User-supplied callback bodies (factories, setup inits, runtime updates) are
  arbitrary functions of the state they receive; event-bus listener bodies are
  modelled by the bus actions they perform (see `BusAction`), since a
  listener's only interaction with the bus under scrutiny is `on`/`off`/throw.
* `requestAnimationFrame` looping (`start`) is modelled by a `started` flag on
  the state; `update` is the per-frame pass driven by that loop.
-/

/-- Errors thrown by the orchestrator.  The source throws plain `Error`
objects with distinguishing messages; the spec names the classes
(`LifecycleError`, `MissingResourceError`, `DuplicateResourceError`,
`SetupSystemError`, `CircularDependencyError`, `UnknownResourceError`).
Each constructor corresponds to one `throw new Error(...)` site:
* `alreadyInitialized` — "GameSystems already initialized" (init guard)
* `notInitialized` — "GameSystems not initialized" (update guard)
* `cannotRegisterResource/Setup/System` — the three post-init registration
  guards; these are the spec's `LifecycleError`
* `resourceNotAvailable` — "Resource not available" from `getResource` and
  `_getDependencies`; the spec's `MissingResourceError`
* `duplicateResource` — "Resource already exists" from `addResource`
* `unknownSetupResource` — "Setup system requires unknown resource"
* `circularDependency` — "Circular dependency detected in setup system"
* `setupFailed` — "Setup system failed: cause", the wrapping throw in
  `_runSetupSystem`; the spec's `SetupSystemError(name, cause)`
* `userError` — an arbitrary exception thrown inside user callback code. -/
inductive EngineError where
  | alreadyInitialized
  | notInitialized
  | cannotRegisterResource (name : String)
  | cannotRegisterSetup (name : String)
  | cannotRegisterSystem (name : String)
  | resourceNotAvailable (name : String)
  | duplicateResource (name : String)
  | unknownSetupResource (setupName depName : String)
  | circularDependency (name : String)
  | setupFailed (name : String) (cause : EngineError)
  | userError (msg : String)
deriving DecidableEq, Repr

/-- Model of `Map.get`: value stored under the first (unique) occurrence of a key. -/
def mapGet {β : Type _} (m : List (String × β)) (k : String) : Option β :=
  (m.find? (fun p => p.1 == k)).map (fun p => p.2)

/-- Model of `Map.has`. -/
def mapHas {β : Type _} (m : List (String × β)) (k : String) : Bool :=
  (m.find? (fun p => p.1 == k)).isSome

/-- Model of `Map.set`: update in place (keeping insertion position) or append. -/
def mapSet {β : Type _} : List (String × β) → String → β → List (String × β)
  | [], k, v => [(k, v)]
  | (k', v') :: rest, k, v =>
    if k' == k then (k, v) :: rest else (k', v') :: mapSet rest k v

/-- A registry entry: `{ factory, instance }` (line 103 / line 396).
`factory` receives the game config; `inst` models the nullable `instance`
field (the field is called `instance` in the source, a reserved word here). -/
structure Resource (α : Type) where
  factory : Option (α → Except EngineError α)
  inst : Option α

/-- A registered setup system `{ name, init, dependencies }` (lines 135-139).
`init` receives the world, the resolved dependency map and the game config
(the source also passes the engine itself; effects routed through it are not
exercised by the verified claims) and yields the—possibly mutated—world. -/
structure SetupSystem (α : Type) where
  name : String
  init : α → List (String × α) → α → Except EngineError α
  dependencies : List String

/-- A registered runtime system `{ name, update, dependencies, priority }`
(lines 170-175).  `update` receives the world, the resolved dependency map
and the frame delta time. -/
structure RuntimeSystem (α : Type) where
  name : String
  update : α → List (String × α) → Int → Except EngineError α
  dependencies : List String
  priority : Int

/-- The orchestrator state (constructor, lines 69-89).  `gameConfig` is set
by `init` (line 195); `started` records that `start()` (line 226 / 238-245)
kicked off the frame loop; event listeners are identified by a numeric id
standing for JS function identity. -/
structure GameSystems (α : Type) where
  world : α
  resources : List (String × Resource α)
  setupSystems : List (SetupSystem α)
  runtimeSystems : List (RuntimeSystem α)
  initialized : Bool
  eventListeners : List (String × List Nat)
  gameConfig : Option α
  started : Bool

/-- Observable side effects of an orchestrator run. -/
inductive Ev (α : Type) where
  /-- a resource factory was invoked with the given config (line 213) -/
  | factoryRun (name : String) (cfg : α)
  /-- a setup system's `init` was invoked (line 279) -/
  | setupRun (name : String)
  /-- a runtime system's `update` was invoked (line 305) -/
  | systemRun (name : String)
  /-- log via `console.error` for a caught runtime-system failure (line 307) -/
  | errLog (name : String) (e : EngineError)
  /-- the draw call `renderer.renderer.render(renderer.scene, camera.camera)`
  issued with the renderer and camera instances (line 325) -/
  | drawCall (renderer camera : α)
deriving DecidableEq, Repr

/-- Constructor `new GameSystems()` with the given fresh ECS world. -/
def GameSystems.new {α : Type} (w : α) : GameSystems α :=
  { world := w, resources := [], setupSystems := [], runtimeSystems := [],
    initialized := false, eventListeners := [], gameConfig := none,
    started := false }

/-- Method `registerResource(name, factory)` (lines 97-104). -/
def GameSystems.registerResource {α : Type} (st : GameSystems α) (name : String)
    (factory : α → Except EngineError α) : GameSystems α × Option EngineError :=
  if st.initialized then (st, some (.cannotRegisterResource name))
  else ({ st with resources := mapSet st.resources name ⟨some factory, none⟩ }, none)

/-- Method `registerSetup(name, { init, dependencies = [] })` (lines 129-140). -/
def GameSystems.registerSetup {α : Type} (st : GameSystems α) (name : String)
    (init : α → List (String × α) → α → Except EngineError α)
    (dependencies : List String := []) : GameSystems α × Option EngineError :=
  if st.initialized then (st, some (.cannotRegisterSetup name))
  else ({ st with setupSystems := st.setupSystems ++ [⟨name, init, dependencies⟩] }, none)

/-- Stable insertion of a runtime system into a priority-sorted list: the new
element goes after every element of priority `≤` its own. -/
def insertByPriority {α : Type} (x : RuntimeSystem α) :
    List (RuntimeSystem α) → List (RuntimeSystem α)
  | [] => [x]
  | y :: ys =>
    if y.priority ≤ x.priority then y :: insertByPriority x ys
    else x :: y :: ys

/-- Model of `this.runtimeSystems.sort((a, b) => a.priority - b.priority)` (line 178).
`Array.prototype.sort` is stable (ECMAScript 2019), and with this comparator
it sorts ascending by `priority`; modelled by a stable insertion sort. -/
def sortByPriority {α : Type} (l : List (RuntimeSystem α)) : List (RuntimeSystem α) :=
  l.foldl (fun acc x => insertByPriority x acc) []

/-- Method `registerSystem(name, { update, dependencies = [], priority = 0 })`
(lines 164-179): push, then re-sort stably by priority. -/
def GameSystems.registerSystem {α : Type} (st : GameSystems α) (name : String)
    (update : α → List (String × α) → Int → Except EngineError α)
    (dependencies : List String := []) (priority : Int := 0) :
    GameSystems α × Option EngineError :=
  if st.initialized then (st, some (.cannotRegisterSystem name))
  else ({ st with runtimeSystems :=
            sortByPriority (st.runtimeSystems ++ [⟨name, update, dependencies, priority⟩]) },
        none)

/-- Truthiness of `this.resources.get(name).instance` for a looked-up entry. -/
def hasInstance {α : Type} : Option (Resource α) → Bool
  | some r => r.inst.isSome
  | none => false

/-- Method `addResource(name, instance)` (lines 389-397): refuse when a non-null
instance already exists under the name, except for the `eventBus` placeholder
override; otherwise store `{ factory: null, instance }`. -/
def GameSystems.addResource {α : Type} (st : GameSystems α) (name : String)
    (inst : α) : GameSystems α × Option EngineError :=
  if mapHas st.resources name && hasInstance (mapGet st.resources name) then
    if name ≠ "eventBus" then (st, some (.duplicateResource name))
    else ({ st with resources := mapSet st.resources name ⟨none, some inst⟩ }, none)
  else ({ st with resources := mapSet st.resources name ⟨none, some inst⟩ }, none)

/-- Method `getResource(name)` (lines 341-347): throws when the entry is absent or
its instance is still null. -/
def GameSystems.getResource {α : Type} (st : GameSystems α) (name : String) :
    Except EngineError α :=
  match mapGet st.resources name with
  | none => .error (.resourceNotAvailable name)
  | some r =>
    match r.inst with
    | none => .error (.resourceNotAvailable name)
    | some i => .ok i

/-- Method `_getDependencies(dependencyNames)` (lines 640-652): build the `deps`
object, throwing on the first name whose entry is absent or uninstantiated. -/
def GameSystems.getDependencies {α : Type} (st : GameSystems α) :
    List String → Except EngineError (List (String × α))
  | [] => .ok []
  | n :: rest =>
    match mapGet st.resources n with
    | none => .error (.resourceNotAvailable n)
    | some r =>
      match r.inst with
      | none => .error (.resourceNotAvailable n)
      | some i =>
        match GameSystems.getDependencies st rest with
        | .error e => .error e
        | .ok deps => .ok ((n, i) :: deps)

/-- Method `render()` (lines 321-327).  Looks up `renderer` and `camera` through
`getResource` — which throws when either is absent — then issues the draw
call.  The source guard `if (renderer && camera)` (line 324) can never be
false, because `getResource` never returns a missing value: it throws
instead.  On success the returned pair is the two instances drawn with. -/
def GameSystems.render {α : Type} (st : GameSystems α) :
    Except EngineError (α × α) := do
  let renderer ← st.getResource "renderer"
  let camera ← st.getResource "camera"
  return (renderer, camera)

/-- One iteration of the per-frame loop body (lines 299-310): resolve the
system's dependencies and run its `update`, catching any error from either
step (`console.error`, continue). -/
def runSystemStep {α : Type} (st : GameSystems α) (s : RuntimeSystem α)
    (dt : Int) : GameSystems α × List (Ev α) :=
  match st.getDependencies s.dependencies with
  | .error e => (st, [.errLog s.name e])
  | .ok deps =>
    match s.update st.world deps dt with
    | .error e => ({ st with world := st.world }, [.systemRun s.name, .errLog s.name e])
    | .ok w => ({ st with world := w }, [.systemRun s.name])

/-- The per-frame loop over the runtime-system list (lines 299-310). -/
def runSystemsGo {α : Type} :
    List (RuntimeSystem α) → GameSystems α → Int → GameSystems α × List (Ev α)
  | [], st, _ => (st, [])
  | s :: rest, st, dt =>
    ((runSystemsGo rest (runSystemStep st s dt).1 dt).1,
     (runSystemStep st s dt).2 ++ (runSystemsGo rest (runSystemStep st s dt).1 dt).2)

/-- Trace contribution of the final render step of a frame. -/
def renderEvs {α : Type} (st : GameSystems α) : List (Ev α) :=
  match st.render with
  | .ok (r, c) => [.drawCall r c]
  | .error _ => []

/-- Error outcome of the final render step of a frame. -/
def renderErr {α : Type} (st : GameSystems α) : Option EngineError :=
  match st.render with
  | .ok _ => none
  | .error e => some e

/-- Method `update(deltaTime)` (lines 293-314): guard on `initialized`, run every
runtime system in priority order with per-system error isolation, then call
`render()` — note the render call sits outside the per-system `try/catch`,
so a render error propagates to the caller of `update`. -/
def GameSystems.update {α : Type} (st : GameSystems α) (dt : Int) :
    GameSystems α × List (Ev α) × Option EngineError :=
  if !st.initialized then (st, [], some .notInitialized)
  else
    ((runSystemsGo st.runtimeSystems st dt).1,
     (runSystemsGo st.runtimeSystems st dt).2 ++ renderEvs (runSystemsGo st.runtimeSystems st dt).1,
     renderErr (runSystemsGo st.runtimeSystems st dt).1)

/-- Phase 1 of `init` (lines 211-215): walk the resource registry in
insertion order; for every entry with a factory, invoke it on the game config
and store the instance.  A factory throw aborts the walk, leaving earlier
entries instantiated. -/
def runFactories {α : Type} :
    List (String × Resource α) → α →
    List (String × Resource α) × List (Ev α) × Option EngineError
  | [], _ => ([], [], none)
  | (n, r) :: rest, cfg =>
    match r.factory with
    | none =>
      ((n, r) :: (runFactories rest cfg).1, (runFactories rest cfg).2.1,
       (runFactories rest cfg).2.2)
    | some f =>
      match f cfg with
      | .error e => ((n, r) :: rest, [.factoryRun n cfg], some e)
      | .ok i =>
        ((n, { r with inst := some i }) :: (runFactories rest cfg).1,
         .factoryRun n cfg :: (runFactories rest cfg).2.1,
         (runFactories rest cfg).2.2)

/-- Method `_runSetupSystem(setup, completed, inProgress, gameConfig)`
(lines 252-287): skip if completed; cycle check against `inProgress`; check
every declared dependency names a registry entry; then resolve dependencies
and run `init` inside the try, wrapping any failure as
`setupFailed(name, cause)` after clearing `inProgress`. -/
def runSetupSystem {α : Type} (st : GameSystems α) (s : SetupSystem α)
    (completed inProgress : List String) (cfg : α) :
    GameSystems α × List String × List String × List (Ev α) × Option EngineError :=
  if completed.contains s.name then (st, completed, inProgress, [], none)
  else if inProgress.contains s.name then
    (st, completed, inProgress, [], some (.circularDependency s.name))
  else
    match s.dependencies.find? (fun d => !(mapHas st.resources d)) with
    | some d => (st, completed, inProgress, [], some (.unknownSetupResource s.name d))
    | none =>
      match st.getDependencies s.dependencies with
      | .error e =>
        (st, completed, (inProgress ++ [s.name]).erase s.name, [],
         some (.setupFailed s.name e))
      | .ok deps =>
        match s.init st.world deps cfg with
        | .error e =>
          (st, completed, (inProgress ++ [s.name]).erase s.name, [.setupRun s.name],
           some (.setupFailed s.name e))
        | .ok w =>
          ({ st with world := w }, completed ++ [s.name],
           (inProgress ++ [s.name]).erase s.name, [.setupRun s.name], none)

/-- Phase 2 of `init` (lines 218-223): run each registered setup system in
registration order, threading the `completed` / `inProgress` sets, aborting
on the first failure (fail-fast). -/
def runSetupsGo {α : Type} :
    List (SetupSystem α) → GameSystems α → List String → List String → α →
    GameSystems α × List String × List String × List (Ev α) × Option EngineError
  | [], st, c, ip, _ => (st, c, ip, [], none)
  | s :: rest, st, c, ip, cfg =>
    match runSetupSystem st s c ip cfg with
    | (st', c', ip', tr, some e) => (st', c', ip', tr, some e)
    | (st', c', ip', tr, none) =>
      match runSetupsGo rest st' c' ip' cfg with
      | (st'', c'', ip'', tr', e) => (st'', c'', ip'', tr ++ tr', e)

/-- Method `init(gameConfig)` (lines 191-231): guard against double initialization,
store the config, run phase 1 (resource factories) then phase 2 (setup
systems); on success set `initialized` and start the frame loop, on failure
re-throw (the `console.error` in the catch is not traced).  The prologue at
lines 197-207 (`_registerCoreSystems` and the conditional debug-system
registration) only adds entries to the three registries; the theorems below
therefore quantify over the registry state in which the two phases begin. -/
def GameSystems.init {α : Type} (st : GameSystems α) (cfg : α) :
    GameSystems α × List (Ev α) × Option EngineError :=
  if st.initialized then (st, [], some .alreadyInitialized)
  else
    match runFactories st.resources cfg with
    | (res', ftr, some e) =>
      ({ st with gameConfig := some cfg, resources := res' }, ftr, some e)
    | (res', ftr, none) =>
      match runSetupsGo st.setupSystems
          { st with gameConfig := some cfg, resources := res' } [] [] cfg with
      | (st2, _, _, str, some e) => (st2, ftr ++ str, some e)
      | (st2, _, _, str, none) =>
        ({ st2 with initialized := true, started := true }, ftr ++ str, none)

/-- Method `on(eventName, callback)` (lines 572-577): create the per-name list when
absent, then push. -/
def GameSystems.on {α : Type} (st : GameSystems α) (ev : String) (l : Nat) :
    GameSystems α :=
  { st with eventListeners :=
      mapSet st.eventListeners ev (((mapGet st.eventListeners ev).getD []) ++ [l]) }

/-- Method `off(eventName, callback)` (lines 593-601): `indexOf` + `splice`, i.e.
remove the first occurrence, no-op when absent. -/
def GameSystems.off {α : Type} (st : GameSystems α) (ev : String) (l : Nat) :
    GameSystems α :=
  match mapGet st.eventListeners ev with
  | none => st
  | some ls =>
    if ls.contains l then
      { st with eventListeners := mapSet st.eventListeners ev (ls.erase l) }
    else st

/-- What a listener body may do to the event bus while it runs: subscribe a
listener, unsubscribe a listener, or throw (which ends the body; `emit`
catches and logs it, line 628-630). -/
inductive BusAction where
  | subscribeAct (ev : String) (l : Nat)
  | unsubscribeAct (ev : String) (l : Nat)
  | failAct
deriving DecidableEq, Repr

/-- Run one listener body, given as its sequence of bus actions; returns the
state it leaves behind and whether it threw. -/
def runListenerActions {α : Type} (st : GameSystems α) :
    List BusAction → GameSystems α × Bool
  | [] => (st, false)
  | .subscribeAct ev l :: rest => runListenerActions (st.on ev l) rest
  | .unsubscribeAct ev l :: rest => runListenerActions (st.off ev l) rest
  | .failAct :: _ => (st, true)

/-- The `emit` iteration over the snapshot copy (lines 624-631): invoke each
listener of the snapshot with the payload (recorded in the returned trace),
catching listener throws. `B` maps a listener id to its body's actions. -/
def emitGo {α : Type} (B : Nat → List BusAction) (d : α) :
    List Nat → GameSystems α → GameSystems α × List (Nat × α)
  | [], st => (st, [])
  | l :: rest, st =>
    ((emitGo B d rest (runListenerActions st (B l)).1).1,
     (l, d) :: (emitGo B d rest (runListenerActions st (B l)).1).2)

/-- Method `emit(eventName, data)` (lines 621-633): if the name has a listener list,
iterate over a snapshot copy `[...listeners]` of it. -/
def GameSystems.emit {α : Type} (st : GameSystems α) (B : Nat → List BusAction)
    (ev : String) (d : α) : GameSystems α × List (Nat × α) :=
  if mapHas st.eventListeners ev then
    emitGo B d ((mapGet st.eventListeners ev).getD []) st
  else (st, [])

/-- Boolean recognizer for `Ev.systemRun` trace entries. -/
def isSystemRunEv {α : Type} : Ev α → Bool
  | .systemRun _ => true
  | _ => false

/-- Boolean recognizer for `Ev.setupRun` trace entries. -/
def isSetupRunEv {α : Type} : Ev α → Bool
  | .setupRun _ => true
  | _ => false

/-- Registering a batch of runtime systems one by one (the way both
`_registerCoreSystems` and game code call `registerSystem`). -/
def regAll {α : Type} (regs : List (RuntimeSystem α)) (st : GameSystems α) :
    GameSystems α :=
  regs.foldl (fun s r => (s.registerSystem r.name r.update r.dependencies r.priority).1) st

/-! ## Concrete fixtures used by the claim-level theorems and witnesses -/

/-- An initialized orchestrator state whose resource registry is empty (the
exported `GameSystems` class leaves all registration to callers). -/
def emptyInitialized : GameSystems Nat :=
  { world := 0, resources := [], setupSystems := [], runtimeSystems := [],
    initialized := true, eventListeners := [], gameConfig := none,
    started := true }

/-- A runtime system whose declared dependency `ghost` has no registry entry. -/
def ghostSystem : RuntimeSystem Nat :=
  { name := "needs-ghost", update := fun w _ _ => Except.ok w,
    dependencies := ["ghost"], priority := 0 }

/-- A well-behaved runtime system of higher priority. -/
def afterSystem : RuntimeSystem Nat :=
  { name := "after", update := fun w _ _ => Except.ok (w + 1),
    dependencies := [], priority := 1 }

/-- A runtime system whose `update` always throws. -/
def throwingSystem : RuntimeSystem Nat :=
  { name := "bad", update := fun _ _ _ => Except.error (.userError "boom"),
    dependencies := [], priority := 0 }

/-- Initialized state holding renderer and camera instances, a runtime system
whose dependency resolution fails, then a later well-behaved system. -/
def missingDepState : GameSystems Nat :=
  { world := 0,
    resources := [("renderer", ⟨none, some 1⟩), ("camera", ⟨none, some 2⟩)],
    setupSystems := [], runtimeSystems := [ghostSystem, afterSystem],
    initialized := true, eventListeners := [], gameConfig := none,
    started := true }

/-- Initialized state holding renderer and camera instances, a throwing
runtime system, then a later well-behaved system. -/
def throwingState : GameSystems Nat :=
  { world := 0,
    resources := [("renderer", ⟨none, some 1⟩), ("camera", ⟨none, some 2⟩)],
    setupSystems := [], runtimeSystems := [throwingSystem, afterSystem],
    initialized := true, eventListeners := [], gameConfig := none,
    started := true }

/-- Three runtime systems registered in the order b(5), a(1), c(5). -/
def regsFixture : List (RuntimeSystem Nat) :=
  [ { name := "b", update := fun w _ _ => Except.ok w,
      dependencies := [], priority := 5 },
    { name := "a", update := fun w _ _ => Except.ok (w + 1),
      dependencies := [], priority := 1 },
    { name := "c", update := fun w _ _ => Except.ok (w + 2),
      dependencies := [], priority := 5 } ]

/-- A setup system that succeeds, bumping the world. -/
def setupOk : SetupSystem Nat :=
  { name := "s1", init := fun w _ _ => Except.ok (w + 1), dependencies := [] }

/-- A setup system whose `init` throws. -/
def setupFailing : SetupSystem Nat :=
  { name := "s2", init := fun _ _ _ => Except.error (.userError "setup-boom"),
    dependencies := [] }

/-- A setup system registered after the failing one. -/
def setupNever : SetupSystem Nat :=
  { name := "s3", init := fun w _ _ => Except.ok w, dependencies := [] }

/-- Fresh state with setup systems s1 (ok), s2 (throws), s3 (after s2). -/
def failingSetupState : GameSystems Nat :=
  { GameSystems.new 0 with setupSystems := [setupOk, setupFailing, setupNever] }

/-- The state `failingSetupState` reaches after `init(7)` has run its first
setup system (world bumped to 1, config recorded) and before the second
setup system throws. -/
def failingSetupMid : GameSystems Nat :=
  { world := 1, resources := [],
    setupSystems := [setupOk, setupFailing, setupNever],
    runtimeSystems := [], initialized := false, eventListeners := [],
    gameConfig := some 7, started := false }

/-- A resource factory returning `config + 1`. -/
def alphaFactory : Nat → Except EngineError Nat := fun c => Except.ok (c + 1)

/-- A resource factory returning `config * 2`. -/
def gammaFactory : Nat → Except EngineError Nat := fun c => Except.ok (c * 2)

/-- Fresh state with two factory-backed resources around a directly injected
one, plus one setup system. -/
def factoryState : GameSystems Nat :=
  { GameSystems.new 0 with
    resources := [("alpha", ⟨some alphaFactory, none⟩),
                  ("beta", ⟨none, some 5⟩),
                  ("gamma", ⟨some gammaFactory, none⟩)],
    setupSystems := [setupOk] }

/-- Fresh state with listeners 1, 2, 3 subscribed to `tick`. -/
def busState : GameSystems Nat :=
  { GameSystems.new 0 with eventListeners := [("tick", [1, 2, 3])] }

/-- Listener bodies: listener 2 unsubscribes itself and listener 3
mid-emission and subscribes a new listener 9; the others do nothing. -/
def busBehaviors : Nat → List BusAction := fun l =>
  if l == 2 then
    [BusAction.unsubscribeAct "tick" 2, BusAction.unsubscribeAct "tick" 3,
     BusAction.subscribeAct "tick" 9]
  else []

/-- Fresh state holding one factory-registered resource whose factory has not
run yet (instance still null). -/
def droppedFactoryState : GameSystems Nat :=
  { GameSystems.new 0 with
    resources := [("terrain", ⟨some alphaFactory, none⟩)] }

/-! ## Association-list (JS `Map`) lemmas -/

theorem mapGet_cons {β : Type _} (k : String) (v : β) (m : List (String × β))
    (n : String) :
    mapGet ((k, v) :: m) n = if k == n then some v else mapGet m n := by
  by_cases h : k == n <;> simp [mapGet, List.find?, h]

theorem mapHas_eq_isSome {β : Type _} (m : List (String × β)) (k : String) :
    mapHas m k = (mapGet m k).isSome := by
  unfold mapHas mapGet
  cases m.find? (fun p => p.1 == k) <;> rfl

theorem mapGet_mapSet_self {β : Type _} (m : List (String × β)) (k : String)
    (v : β) : mapGet (mapSet m k v) k = some v := by
  induction m with
  | nil => simp [mapSet, mapGet, List.find?]
  | cons p rest ih =>
    obtain ⟨k', v'⟩ := p
    by_cases h : k' == k
    · simp [mapSet, h, mapGet_cons]
    · simp [mapSet, h, mapGet_cons, ih]

theorem mapSet_keys_mem {β : Type _} (m : List (String × β)) (k : String)
    (v : β) (x : String) (hx : x ∈ (mapSet m k v).map Prod.fst) :
    x ∈ m.map Prod.fst ∨ x = k := by
  induction m with
  | nil => simp [mapSet] at hx; simp [hx]
  | cons p rest ih =>
    obtain ⟨k', v'⟩ := p
    by_cases h : k' == k
    · simp [mapSet, h] at hx
      rcases hx with hx | hx
      · right; exact hx
      · left; simp; right; exact hx
    · simp [mapSet, h] at hx
      rcases hx with hx | hx
      · left; simp [hx]
      · rcases ih (by simpa using hx) with h' | h'
        · left; simp at h' ⊢; right; exact h'
        · right; exact h'

theorem mapSet_nodup {β : Type _} (m : List (String × β)) (k : String) (v : β)
    (hnd : (m.map Prod.fst).Nodup) : ((mapSet m k v).map Prod.fst).Nodup := by
  induction m with
  | nil => simp [mapSet]
  | cons p rest ih =>
    obtain ⟨k', v'⟩ := p
    rw [List.map_cons, List.nodup_cons] at hnd
    by_cases h : k' == k
    · have hk : k' = k := by simpa using h
      rw [show mapSet ((k', v') :: rest) k v = (k, v) :: rest from by simp [mapSet, h],
        List.map_cons, List.nodup_cons]
      rw [hk] at hnd
      exact hnd
    · rw [show mapSet ((k', v') :: rest) k v = (k', v') :: mapSet rest k v from by
          simp [mapSet, h],
        List.map_cons, List.nodup_cons]
      refine ⟨fun hmem => ?_, ih hnd.2⟩
      rcases mapSet_keys_mem rest k v k' hmem with h' | h'
      · exact hnd.1 h'
      · exact h (by simp [h'])

/-! ## Stable priority sort lemmas -/

theorem insertByPriority_perm {α : Type} (x : RuntimeSystem α) :
    ∀ l : List (RuntimeSystem α), (insertByPriority x l).Perm (x :: l)
  | [] => List.Perm.refl _
  | y :: ys => by
    unfold insertByPriority
    by_cases h : y.priority ≤ x.priority
    · simp only [h, if_true]
      exact ((insertByPriority_perm x ys).cons y).trans (List.Perm.swap x y ys)
    · simp only [h, if_false]
      exact List.Perm.refl _

theorem insertByPriority_sorted {α : Type} (x : RuntimeSystem α)
    (l : List (RuntimeSystem α))
    (hs : l.Pairwise (fun a b => a.priority ≤ b.priority)) :
    (insertByPriority x l).Pairwise (fun a b => a.priority ≤ b.priority) := by
  induction l with
  | nil => simp [insertByPriority]
  | cons y ys ih =>
    rw [List.pairwise_cons] at hs
    unfold insertByPriority
    by_cases h : y.priority ≤ x.priority
    · simp only [h, if_true]
      rw [List.pairwise_cons]
      refine ⟨fun z hz => ?_, ih hs.2⟩
      rcases List.mem_cons.mp ((insertByPriority_perm x ys).mem_iff.mp hz) with hz | hz
      · rw [hz]; exact h
      · exact hs.1 z hz
    · simp only [h, if_false]
      rw [List.pairwise_cons]
      refine ⟨fun z hz => ?_, List.pairwise_cons.mpr hs⟩
      have hxy : x.priority ≤ y.priority := le_of_lt (lt_of_not_le h)
      rcases List.mem_cons.mp hz with hz | hz
      · rw [hz]; exact hxy
      · exact le_trans hxy (hs.1 z hz)

theorem insertByPriority_filter {α : Type} (x : RuntimeSystem α) (p : Int) :
    ∀ l : List (RuntimeSystem α),
    l.Pairwise (fun a b => a.priority ≤ b.priority) →
    (insertByPriority x l).filter (fun s => s.priority == p)
      = if x.priority == p
        then l.filter (fun s => s.priority == p) ++ [x]
        else l.filter (fun s => s.priority == p)
  | [] => by
    intro _
    by_cases hx : x.priority == p <;> simp [insertByPriority, hx]
  | y :: ys => by
    intro hs
    rw [List.pairwise_cons] at hs
    unfold insertByPriority
    by_cases h : y.priority ≤ x.priority
    · simp only [h, if_true]
      by_cases hy : y.priority == p <;>
        by_cases hx : x.priority == p <;>
          simp [List.filter_cons, hy, hx, insertByPriority_filter x p ys hs.2]
    · simp only [h, if_false]
      by_cases hx : x.priority == p
      · have hxp : x.priority = p := by simpa using hx
        have hnil : (y :: ys).filter (fun s => s.priority == p) = [] := by
          refine List.filter_eq_nil_iff.mpr fun z hz => ?_
          have hzy : y.priority ≤ z.priority := by
            rcases List.mem_cons.mp hz with hz | hz
            · rw [hz]
            · exact hs.1 z hz
          have : p < z.priority := lt_of_lt_of_le (hxp ▸ lt_of_not_le h) hzy
          simp [Int.ne_of_gt this]
        simp [List.filter_cons, hx, hnil]
      · simp [List.filter_cons, hx]

theorem sortFold_props {α : Type} (p : Int) :
    ∀ (l acc : List (RuntimeSystem α)),
    acc.Pairwise (fun a b => a.priority ≤ b.priority) →
    (l.foldl (fun a x => insertByPriority x a) acc).Pairwise
        (fun a b => a.priority ≤ b.priority)
    ∧ (l.foldl (fun a x => insertByPriority x a) acc).filter (fun s => s.priority == p)
      = acc.filter (fun s => s.priority == p) ++ l.filter (fun s => s.priority == p)
  | [], acc => fun hs => by simp [hs]
  | x :: l, acc => fun hs => by
    rw [List.foldl_cons]
    have hins := insertByPriority_sorted x acc hs
    obtain ⟨h1, h2⟩ := sortFold_props p l (insertByPriority x acc) hins
    refine ⟨h1, ?_⟩
    rw [h2, insertByPriority_filter x p acc hs, List.filter_cons]
    by_cases hx : x.priority == p <;> simp [hx]

theorem sortByPriority_sorted {α : Type} (l : List (RuntimeSystem α)) :
    (sortByPriority l).Pairwise (fun a b => a.priority ≤ b.priority) :=
  (sortFold_props 0 l [] (by simp)).1

theorem sortByPriority_filter {α : Type} (l : List (RuntimeSystem α)) (p : Int) :
    (sortByPriority l).filter (fun s => s.priority == p)
      = l.filter (fun s => s.priority == p) := by
  have := (sortFold_props p l [] (by simp)).2
  simpa [sortByPriority] using this

/-! ## Registration fold lemmas -/

theorem regAll_props {α : Type} (p : Int) :
    ∀ (regs : List (RuntimeSystem α)) (st : GameSystems α),
    st.initialized = false →
    st.runtimeSystems.Pairwise (fun a b => a.priority ≤ b.priority) →
    (regAll regs st).initialized = false
    ∧ (regAll regs st).runtimeSystems.Pairwise (fun a b => a.priority ≤ b.priority)
    ∧ (regAll regs st).runtimeSystems.filter (fun s => s.priority == p)
      = st.runtimeSystems.filter (fun s => s.priority == p)
        ++ regs.filter (fun s => s.priority == p)
  | [], st => fun hinit hs => by simp [regAll, hinit, hs]
  | r :: regs, st => fun hinit hs => by
    obtain ⟨n, u, d, pr⟩ := r
    have hstep : (st.registerSystem n u d pr).1
        = { st with runtimeSystems := sortByPriority (st.runtimeSystems ++ [⟨n, u, d, pr⟩]) } := by
      simp [GameSystems.registerSystem, hinit]
    have hsorted' := sortByPriority_sorted (st.runtimeSystems ++ [(⟨n, u, d, pr⟩ : RuntimeSystem α)])
    have hrest := regAll_props p regs
      { st with runtimeSystems := sortByPriority (st.runtimeSystems ++ [⟨n, u, d, pr⟩]) }
      hinit hsorted'
    have hunfold : regAll (⟨n, u, d, pr⟩ :: regs) st
        = regAll regs { st with runtimeSystems := sortByPriority (st.runtimeSystems ++ [⟨n, u, d, pr⟩]) } := by
      simp [regAll, hstep]
    rw [hunfold]
    refine ⟨hrest.1, hrest.2.1, ?_⟩
    rw [hrest.2.2]
    simp only [sortByPriority_filter, List.filter_append]
    by_cases hr : (⟨n, u, d, pr⟩ : RuntimeSystem α).priority == p <;>
      simp [List.filter_cons, hr, List.filter_singleton]

/-! ## Per-frame loop lemmas -/

theorem runSystemStep_fields {α : Type} (st : GameSystems α)
    (s : RuntimeSystem α) (dt : Int) :
    (runSystemStep st s dt).1
      = { st with world := (runSystemStep st s dt).1.world } := by
  unfold runSystemStep
  split
  · rfl
  · split <;> rfl

theorem runSystemsGo_fields {α : Type} (dt : Int) :
    ∀ (l : List (RuntimeSystem α)) (st : GameSystems α),
    (runSystemsGo l st dt).1 = { st with world := (runSystemsGo l st dt).1.world }
  | [], st => rfl
  | s :: rest, st => by
    rw [show runSystemsGo (s :: rest) st dt
        = ((runSystemsGo rest (runSystemStep st s dt).1 dt).1,
           (runSystemStep st s dt).2 ++ (runSystemsGo rest (runSystemStep st s dt).1 dt).2)
       from rfl]
    have h1 := runSystemsGo_fields dt rest (runSystemStep st s dt).1
    have h2 := runSystemStep_fields st s dt
    rw [h1, h2]

theorem runSystemsGo_append {α : Type} (dt : Int) :
    ∀ (l1 l2 : List (RuntimeSystem α)) (st : GameSystems α),
    runSystemsGo (l1 ++ l2) st dt
      = ((runSystemsGo l2 (runSystemsGo l1 st dt).1 dt).1,
         (runSystemsGo l1 st dt).2 ++ (runSystemsGo l2 (runSystemsGo l1 st dt).1 dt).2)
  | [], l2, st => by simp [runSystemsGo]
  | s :: l1, l2, st => by
    have ih := runSystemsGo_append dt l1 l2 (runSystemStep st s dt).1
    rw [show (s :: l1) ++ l2 = s :: (l1 ++ l2) from rfl]
    rw [show runSystemsGo (s :: (l1 ++ l2)) st dt
        = ((runSystemsGo (l1 ++ l2) (runSystemStep st s dt).1 dt).1,
           (runSystemStep st s dt).2
             ++ (runSystemsGo (l1 ++ l2) (runSystemStep st s dt).1 dt).2)
       from rfl]
    rw [show runSystemsGo (s :: l1) st dt
        = ((runSystemsGo l1 (runSystemStep st s dt).1 dt).1,
           (runSystemStep st s dt).2
             ++ (runSystemsGo l1 (runSystemStep st s dt).1 dt).2)
       from rfl]
    rw [ih]
    simp [List.append_assoc]

theorem runSystemsGo_all_runs {α : Type} (dt : Int) :
    ∀ (l : List (RuntimeSystem α)) (st : GameSystems α),
    (runSystemsGo l st dt).2.all isSystemRunEv = true →
    (runSystemsGo l st dt).2 = l.map (fun s => Ev.systemRun s.name)
  | [], st => fun _ => rfl
  | s :: rest, st => fun hall => by
    rw [show runSystemsGo (s :: rest) st dt
        = ((runSystemsGo rest (runSystemStep st s dt).1 dt).1,
           (runSystemStep st s dt).2 ++ (runSystemsGo rest (runSystemStep st s dt).1 dt).2)
       from rfl] at hall ⊢
    simp only [List.all_append, Bool.and_eq_true] at hall
    have hstep : (runSystemStep st s dt).2 = [Ev.systemRun s.name] := by
      unfold runSystemStep at hall ⊢
      split at hall
      · simp [isSystemRunEv] at hall
      · split at hall
        · simp [isSystemRunEv] at hall
        · rfl
    simp only [List.map_cons]
    rw [hstep, runSystemsGo_all_runs dt rest (runSystemStep st s dt).1 hall.2]
    rfl

/-! ## Setup-phase lemmas -/

theorem runSetupsGo_cons_err {α : Type} (cfg : α) (s : SetupSystem α)
    (l : List (SetupSystem α)) (st : GameSystems α) (c ip : List String)
    (st' : GameSystems α) (c' ip' : List String) (tr : List (Ev α))
    (e : EngineError)
    (h : runSetupSystem st s c ip cfg = (st', c', ip', tr, some e)) :
    runSetupsGo (s :: l) st c ip cfg = (st', c', ip', tr, some e) := by
  unfold runSetupsGo
  rw [h]

theorem runSetupsGo_cons_ok {α : Type} (cfg : α) (s : SetupSystem α)
    (l : List (SetupSystem α)) (st : GameSystems α) (c ip : List String)
    (st' : GameSystems α) (c' ip' : List String) (tr : List (Ev α))
    (a : GameSystems α) (b cc : List String) (d : List (Ev α))
    (ee : Option EngineError)
    (h : runSetupSystem st s c ip cfg = (st', c', ip', tr, none))
    (hr : runSetupsGo l st' c' ip' cfg = (a, b, cc, d, ee)) :
    runSetupsGo (s :: l) st c ip cfg = (a, b, cc, tr ++ d, ee) := by
  unfold runSetupsGo
  rw [h]
  simp [hr]

theorem runSetupsGo_append_ok {α : Type} (cfg : α) :
    ∀ (l1 l2 : List (SetupSystem α)) (st : GameSystems α) (c ip : List String)
      (st2 : GameSystems α) (c2 ip2 : List String) (tr2 : List (Ev α))
      (st3 : GameSystems α) (c3 ip3 : List String) (tr3 : List (Ev α))
      (e3 : Option EngineError),
    runSetupsGo l1 st c ip cfg = (st2, c2, ip2, tr2, none) →
    runSetupsGo l2 st2 c2 ip2 cfg = (st3, c3, ip3, tr3, e3) →
    runSetupsGo (l1 ++ l2) st c ip cfg = (st3, c3, ip3, tr2 ++ tr3, e3)
  | [], l2, st, c, ip, st2, c2, ip2, tr2, st3, c3, ip3, tr3, e3 => by
    intro h1 h2
    rw [show runSetupsGo ([] : List (SetupSystem α)) st c ip cfg
        = (st, c, ip, ([] : List (Ev α)), (none : Option EngineError)) from rfl] at h1
    simp only [Prod.mk.injEq] at h1
    obtain ⟨ha, hb, hc, hd, _⟩ := h1
    subst ha; subst hb; subst hc; subst hd
    simpa using h2
  | s :: l1, l2, st, c, ip, st2, c2, ip2, tr2, st3, c3, ip3, tr3, e3 => by
    intro h1 h2
    rcases hstep : runSetupSystem st s c ip cfg with ⟨st', c', ip', tr, oe⟩
    cases oe with
    | some e =>
      rw [runSetupsGo_cons_err cfg s l1 st c ip st' c' ip' tr e hstep] at h1
      simp [Prod.mk.injEq] at h1
    | none =>
      rcases hr : runSetupsGo l1 st' c' ip' cfg with ⟨a, b, cc, d, ee⟩
      rw [runSetupsGo_cons_ok cfg s l1 st c ip st' c' ip' tr a b cc d ee hstep hr] at h1
      simp only [Prod.mk.injEq] at h1
      obtain ⟨ha, hb, hc, hd, he⟩ := h1
      rw [ha, hb, hc, he] at hr
      have ih := runSetupsGo_append_ok cfg l1 l2 st' c' ip' st2 c2 ip2 d st3 c3 ip3 tr3 e3 hr h2
      rw [show (s :: l1) ++ l2 = s :: (l1 ++ l2) from rfl]
      rw [runSetupsGo_cons_ok cfg s (l1 ++ l2) st c ip st' c' ip' tr st3 c3 ip3
        (d ++ tr3) e3 hstep ih]
      rw [← hd, List.append_assoc]

theorem runSetupSystem_initialized {α : Type} (st : GameSystems α)
    (s : SetupSystem α) (c ip : List String) (cfg : α) :
    (runSetupSystem st s c ip cfg).1.initialized = st.initialized := by
  unfold runSetupSystem
  split
  · rfl
  split
  · rfl
  split
  · rfl
  split
  · rfl
  split <;> rfl

theorem runSetupSystem_started {α : Type} (st : GameSystems α)
    (s : SetupSystem α) (c ip : List String) (cfg : α) :
    (runSetupSystem st s c ip cfg).1.started = st.started := by
  unfold runSetupSystem
  split
  · rfl
  split
  · rfl
  split
  · rfl
  split
  · rfl
  split <;> rfl

theorem runSetupsGo_initialized {α : Type} (cfg : α) :
    ∀ (l : List (SetupSystem α)) (st : GameSystems α) (c ip : List String),
    (runSetupsGo l st c ip cfg).1.initialized = st.initialized
  | [], st, c, ip => rfl
  | s :: l, st, c, ip => by
    rcases hstep : runSetupSystem st s c ip cfg with ⟨st', c', ip', tr, oe⟩
    have hf := runSetupSystem_initialized st s c ip cfg
    rw [hstep] at hf
    cases oe with
    | some e =>
      rw [runSetupsGo_cons_err cfg s l st c ip st' c' ip' tr e hstep]
      exact hf
    | none =>
      rcases hr : runSetupsGo l st' c' ip' cfg with ⟨a, b, cc, d, ee⟩
      rw [runSetupsGo_cons_ok cfg s l st c ip st' c' ip' tr a b cc d ee hstep hr]
      have ih := runSetupsGo_initialized cfg l st' c' ip'
      rw [hr] at ih
      exact ih.trans hf

theorem runSetupsGo_started {α : Type} (cfg : α) :
    ∀ (l : List (SetupSystem α)) (st : GameSystems α) (c ip : List String),
    (runSetupsGo l st c ip cfg).1.started = st.started
  | [], st, c, ip => rfl
  | s :: l, st, c, ip => by
    rcases hstep : runSetupSystem st s c ip cfg with ⟨st', c', ip', tr, oe⟩
    have hf := runSetupSystem_started st s c ip cfg
    rw [hstep] at hf
    cases oe with
    | some e =>
      rw [runSetupsGo_cons_err cfg s l st c ip st' c' ip' tr e hstep]
      exact hf
    | none =>
      rcases hr : runSetupsGo l st' c' ip' cfg with ⟨a, b, cc, d, ee⟩
      rw [runSetupsGo_cons_ok cfg s l st c ip st' c' ip' tr a b cc d ee hstep hr]
      have ih := runSetupsGo_started cfg l st' c' ip'
      rw [hr] at ih
      exact ih.trans hf

theorem runSetupSystem_completed_subset {α : Type} (st : GameSystems α)
    (s : SetupSystem α) (c ip : List String) (cfg : α) :
    c ⊆ (runSetupSystem st s c ip cfg).2.1 := by
  unfold runSetupSystem
  split
  · exact List.Subset.refl c
  split
  · exact List.Subset.refl c
  split
  · exact List.Subset.refl c
  split
  · exact List.Subset.refl c
  split
  · exact List.Subset.refl c
  · exact List.subset_append_left c [s.name]

theorem runSetupSystem_ok_mem {α : Type} (st : GameSystems α)
    (s : SetupSystem α) (c ip : List String) (cfg : α)
    (st' : GameSystems α) (c' ip' : List String) (tr : List (Ev α))
    (h : runSetupSystem st s c ip cfg = (st', c', ip', tr, none)) :
    s.name ∈ c' := by
  unfold runSetupSystem at h
  split at h
  · rename_i hcont
    simp only [Prod.mk.injEq] at h
    rw [← h.2.1]
    exact List.mem_of_elem_eq_true hcont
  split at h
  · simp [Prod.mk.injEq] at h
  split at h
  · simp [Prod.mk.injEq] at h
  split at h
  · simp [Prod.mk.injEq] at h
  split at h
  · simp [Prod.mk.injEq] at h
  · simp only [Prod.mk.injEq] at h
    rw [← h.2.1]
    exact List.mem_append_right c (List.mem_singleton.mpr rfl)

theorem runSetupsGo_completed_subset {α : Type} (cfg : α) :
    ∀ (l : List (SetupSystem α)) (st : GameSystems α) (c ip : List String),
    c ⊆ (runSetupsGo l st c ip cfg).2.1
  | [], st, c, ip => List.Subset.refl c
  | s :: l, st, c, ip => by
    rcases hstep : runSetupSystem st s c ip cfg with ⟨st', c', ip', tr, oe⟩
    have hsub := runSetupSystem_completed_subset st s c ip cfg
    rw [hstep] at hsub
    cases oe with
    | some e =>
      rw [runSetupsGo_cons_err cfg s l st c ip st' c' ip' tr e hstep]
      exact hsub
    | none =>
      rcases hr : runSetupsGo l st' c' ip' cfg with ⟨a, b, cc, d, ee⟩
      rw [runSetupsGo_cons_ok cfg s l st c ip st' c' ip' tr a b cc d ee hstep hr]
      have ih := runSetupsGo_completed_subset cfg l st' c' ip'
      rw [hr] at ih
      exact hsub.trans ih

theorem runSetupsGo_ok_mem {α : Type} (cfg : α) :
    ∀ (l : List (SetupSystem α)) (st : GameSystems α) (c ip : List String)
      (st2 : GameSystems α) (c2 ip2 : List String) (tr2 : List (Ev α)),
    runSetupsGo l st c ip cfg = (st2, c2, ip2, tr2, none) →
    ∀ s ∈ l, s.name ∈ c2
  | [], st, c, ip, st2, c2, ip2, tr2 => by
    intro _ s hs
    simp at hs
  | s :: l, st, c, ip, st2, c2, ip2, tr2 => by
    intro h1 x hx
    rcases hstep : runSetupSystem st s c ip cfg with ⟨st', c', ip', tr, oe⟩
    cases oe with
    | some e =>
      rw [runSetupsGo_cons_err cfg s l st c ip st' c' ip' tr e hstep] at h1
      simp [Prod.mk.injEq] at h1
    | none =>
      rcases hr : runSetupsGo l st' c' ip' cfg with ⟨a, b, cc, d, ee⟩
      rw [runSetupsGo_cons_ok cfg s l st c ip st' c' ip' tr a b cc d ee hstep hr] at h1
      simp only [Prod.mk.injEq] at h1
      obtain ⟨ha, hb, hc, hd, he⟩ := h1
      rw [ha, hb, hc, he] at hr
      rcases List.mem_cons.mp hx with hx | hx
      · rw [hx]
        have hmem := runSetupSystem_ok_mem st s c ip cfg st' c' ip' tr hstep
        have hsub := runSetupsGo_completed_subset cfg l st' c' ip'
        rw [hr] at hsub
        exact hsub hmem
      · exact runSetupsGo_ok_mem cfg l st' c' ip' st2 c2 ip2 d hr x hx

theorem runSetupSystem_trace {α : Type} (st : GameSystems α)
    (s : SetupSystem α) (c ip : List String) (cfg : α) :
    ((runSetupSystem st s c ip cfg).2.2.2.1).all isSetupRunEv = true := by
  unfold runSetupSystem
  split
  · rfl
  split
  · rfl
  split
  · rfl
  split
  · rfl
  split <;> simp [isSetupRunEv]

theorem runSetupsGo_trace {α : Type} (cfg : α) :
    ∀ (l : List (SetupSystem α)) (st : GameSystems α) (c ip : List String),
    ((runSetupsGo l st c ip cfg).2.2.2.1).all isSetupRunEv = true
  | [], st, c, ip => rfl
  | s :: l, st, c, ip => by
    rcases hstep : runSetupSystem st s c ip cfg with ⟨st', c', ip', tr, oe⟩
    have htr := runSetupSystem_trace st s c ip cfg
    rw [hstep] at htr
    cases oe with
    | some e =>
      rw [runSetupsGo_cons_err cfg s l st c ip st' c' ip' tr e hstep]
      exact htr
    | none =>
      rcases hr : runSetupsGo l st' c' ip' cfg with ⟨a, b, cc, d, ee⟩
      rw [runSetupsGo_cons_ok cfg s l st c ip st' c' ip' tr a b cc d ee hstep hr]
      have ih := runSetupsGo_trace cfg l st' c' ip'
      rw [hr] at ih
      simp only [List.all_append, Bool.and_eq_true]
      exact ⟨htr, ih⟩

/-! ## Factory-phase lemmas -/

theorem runFactories_ok_trace {α : Type} (cfg : α) :
    ∀ (m m' : List (String × Resource α)) (tr : List (Ev α)),
    runFactories m cfg = (m', tr, none) →
    tr = (m.filter (fun q => q.2.factory.isSome)).map (fun q => Ev.factoryRun q.1 cfg)
  | [], m', tr => by
    intro h
    simp only [runFactories, Prod.mk.injEq] at h
    rw [← h.2.1]
    simp
  | (n, r) :: rest, m', tr => by
    intro h
    obtain ⟨rf, ri⟩ := r
    cases rf with
    | none =>
      rcases hrec : runFactories rest cfg with ⟨a, b, c⟩
      simp only [runFactories, hrec, Prod.mk.injEq] at h
      obtain ⟨-, htr, he⟩ := h
      rw [he] at hrec
      have ih := runFactories_ok_trace cfg rest a b hrec
      rw [List.filter_cons]
      simp only [Option.isSome_none, Bool.false_eq_true, if_false]
      rw [← htr, ih]
    | some f =>
      cases hfc : f cfg with
      | error e =>
        simp only [runFactories, hfc, Prod.mk.injEq] at h
        exact absurd h.2.2 (by simp)
      | ok i =>
        rcases hrec : runFactories rest cfg with ⟨a, b, c⟩
        simp only [runFactories, hfc, hrec, Prod.mk.injEq] at h
        obtain ⟨-, htr, he⟩ := h
        rw [he] at hrec
        have ih := runFactories_ok_trace cfg rest a b hrec
        rw [List.filter_cons]
        simp only [Option.isSome_some, if_true]
        rw [List.map_cons, ← htr, ih]

theorem runFactories_trace_mem {α : Type} (cfg : α) :
    ∀ (m : List (String × Resource α)) (ev : Ev α),
    ev ∈ (runFactories m cfg).2.1 → ∃ k r2, (k, r2) ∈ m ∧ ev = Ev.factoryRun k cfg
  | [], ev => by
    intro h
    simp [runFactories] at h
  | (n, r) :: rest, ev => by
    intro h
    obtain ⟨rf, ri⟩ := r
    cases rf with
    | none =>
      simp only [runFactories] at h
      obtain ⟨k, r2, hk, hev⟩ := runFactories_trace_mem cfg rest ev h
      exact ⟨k, r2, List.mem_cons_of_mem _ hk, hev⟩
    | some f =>
      cases hfc : f cfg with
      | error e =>
        simp only [runFactories, hfc, List.mem_singleton] at h
        exact ⟨n, ⟨some f, ri⟩, List.mem_cons_self _ _, h⟩
      | ok i =>
        simp only [runFactories, hfc, List.mem_cons] at h
        rcases h with h | h
        · exact ⟨n, ⟨some f, ri⟩, List.mem_cons_self _ _, h⟩
        · obtain ⟨k, r2, hk, hev⟩ := runFactories_trace_mem cfg rest ev h
          exact ⟨k, r2, List.mem_cons_of_mem _ hk, hev⟩

theorem filtered_factory_count_one {α : Type} [DecidableEq α] (cfg : α)
    (n : String) (r : Resource α) :
    ∀ l : List (String × Resource α),
    (l.map Prod.fst).Nodup → (n, r) ∈ l → r.factory.isSome = true →
    ((l.filter (fun q => q.2.factory.isSome)).map
        (fun q => Ev.factoryRun q.1 cfg)).count (Ev.factoryRun n cfg) = 1
  | [] => by intro _ h _; simp at h
  | (k, q) :: rest => by
    intro hnd hmem hsome
    rw [List.map_cons, List.nodup_cons] at hnd
    rcases List.mem_cons.mp hmem with hh | hh
    · have hk : k = n := by rw [Prod.mk.injEq] at hh; exact hh.1.symm
      have hq : q = r := by rw [Prod.mk.injEq] at hh; exact hh.2.symm
      rw [List.filter_cons]
      simp only [hq, hsome, if_true, List.map_cons, List.count_cons]
      have hzero : ((rest.filter (fun q2 => q2.2.factory.isSome)).map
          (fun q2 => Ev.factoryRun q2.1 cfg)).count (Ev.factoryRun n cfg) = 0 := by
        rw [List.count_eq_zero]
        intro habs
        obtain ⟨p, hp, hpe⟩ := List.mem_map.mp habs
        have hp1 : p.1 = n := by
          simp only [Ev.factoryRun.injEq] at hpe
          exact hpe.1
        have hpn : n ∈ rest.map Prod.fst :=
          List.mem_map.mpr ⟨p, List.mem_of_mem_filter hp, hp1⟩
        rw [hk] at hnd
        exact hnd.1 hpn
      rw [hzero, hk]
      simp
    · have hk : k ≠ n := by
        intro hkn
        have hn : n ∈ rest.map Prod.fst := List.mem_map.mpr ⟨(n, r), hh, rfl⟩
        rw [hkn] at hnd
        exact hnd.1 hn
      rw [List.filter_cons]
      by_cases hqf : q.factory.isSome = true
      · simp only [hqf, if_true, List.map_cons, List.count_cons]
        rw [filtered_factory_count_one cfg n r rest hnd.2 hh hsome]
        simp [hk]
      · simp only [hqf, Bool.false_eq_true, if_false]
        exact filtered_factory_count_one cfg n r rest hnd.2 hh hsome

theorem runFactories_count_one {α : Type} [DecidableEq α] (cfg : α)
    (m m' : List (String × Resource α)) (tr : List (Ev α)) (n : String)
    (r : Resource α) (hnd : (m.map Prod.fst).Nodup) (hmem : (n, r) ∈ m)
    (hsome : r.factory.isSome = true)
    (h : runFactories m cfg = (m', tr, none)) :
    tr.count (Ev.factoryRun n cfg) = 1 := by
  rw [runFactories_ok_trace cfg m m' tr h]
  exact filtered_factory_count_one cfg n r m hnd hmem hsome

theorem runFactories_factoryNone_not_run {α : Type} (cfg : α) :
    ∀ (m : List (String × Resource α)) (n : String) (r : Resource α),
    (m.map Prod.fst).Nodup → mapGet m n = some r → r.factory = none →
    Ev.factoryRun n cfg ∉ (runFactories m cfg).2.1
  | [], n, r => by
    intro _ hget _
    simp [mapGet, List.find?] at hget
  | (k, q) :: rest, n, r => by
    intro hnd hget hrf
    rw [List.map_cons, List.nodup_cons] at hnd
    rw [mapGet_cons] at hget
    obtain ⟨qf, qi⟩ := q
    by_cases hk : k == n
    · simp only [hk, if_true, Option.some.injEq] at hget
      have hkn : k = n := by simpa using hk
      have hqf : qf = none := by
        have := congrArg Resource.factory hget
        simp only at this
        rw [this, hrf]
      cases hqf
      simp only [runFactories]
      intro habs
      obtain ⟨k2, r2, hk2, hev⟩ := runFactories_trace_mem cfg rest _ habs
      have hke : k2 = n := by
        simp only [Ev.factoryRun.injEq] at hev
        exact hev.1.symm
      rw [hke] at hk2
      have hmm : n ∈ rest.map Prod.fst := List.mem_map.mpr ⟨(n, r2), hk2, rfl⟩
      rw [hkn] at hnd
      exact hnd.1 hmm
    · simp only [hk, Bool.false_eq_true, if_false] at hget
      have hkn : k ≠ n := by simpa using hk
      have ih := runFactories_factoryNone_not_run cfg rest n r hnd.2 hget hrf
      cases qf with
      | none =>
        simp only [runFactories]
        exact ih
      | some f =>
        cases hfc : f cfg with
        | error e =>
          simp only [runFactories, hfc, List.mem_singleton]
          intro habs
          simp only [Ev.factoryRun.injEq] at habs
          exact hkn habs.1.symm
        | ok i =>
          simp only [runFactories, hfc, List.mem_cons]
          intro habs
          rcases habs with habs | habs
          · simp only [Ev.factoryRun.injEq] at habs
            exact hkn habs.1.symm
          · exact ih habs

/-! ## Event-bus lemmas -/

theorem emitGo_trace {α : Type} (B : Nat → List BusAction) (d : α) :
    ∀ (ls : List Nat) (st : GameSystems α),
    (emitGo B d ls st).2 = ls.map (fun l => (l, d))
  | [], _ => rfl
  | l :: rest, st => by
    show (l, d) :: (emitGo B d rest (runListenerActions st (B l)).1).2
        = (l :: rest).map (fun x => (x, d))
    rw [emitGo_trace B d rest]
    rfl

/-! ## Frame-pass unfolding -/

theorem update_unfold {α : Type} (st : GameSystems α) (dt : Int)
    (hinit : st.initialized = true) :
    st.update dt
      = ((runSystemsGo st.runtimeSystems st dt).1,
         (runSystemsGo st.runtimeSystems st dt).2
           ++ renderEvs (runSystemsGo st.runtimeSystems st dt).1,
         renderErr (runSystemsGo st.runtimeSystems st dt).1) := by
  unfold GameSystems.update
  rw [hinit]
  rfl

theorem runSystemsGo_runtimeSystems {α : Type} (dt : Int)
    (l : List (RuntimeSystem α)) (st : GameSystems α) :
    (runSystemsGo l st dt).1.runtimeSystems = st.runtimeSystems := by
  rw [runSystemsGo_fields dt l st]

/-! ## Claim theorems -/

/-- Claim C1 (code-bug evidence).  The claim—matching the spec's render
contract—says that when the `renderer` or `camera` resource is absent the
render step is silently skipped and the frame pass completes without
raising.  The code instead reaches `render()` outside the per-system
`try/catch` and looks the two resources up through `getResource`, which
throws `MissingResourceError`; the error propagates out of `update`.  The
source's own guard `if (renderer && camera)` (line 324) is unreachable-false
under this `getResource`, showing the skip was intended.  This theorem
evaluates the frame pass at the failing input: an initialized orchestrator
with no `renderer` entry; `update` returns the error instead of completing
silently. -/
theorem C1_render_absent_resource_raises :
    emptyInitialized.update 1
      = (emptyInitialized, [], some (EngineError.resourceNotAvailable "renderer")) := by
  rfl

/-- Claim C2 (counterexample).  The claim says a missing dependency during a
frame's per-system resolution is fatal: `update` propagates the
`MissingResourceError` instead of continuing with the remaining systems.  At
the concrete input `missingDepState`—whose first runtime system declares the
unregistered dependency `ghost` and whose second system is well-behaved—the
frame pass logs the resolution error, still runs the second system, draws,
and returns no error: the negation of the claim at this input. -/
theorem C2_counterexample :
    (missingDepState.update 1).2.1
      = [Ev.errLog "needs-ghost" (EngineError.resourceNotAvailable "ghost"),
         Ev.systemRun "after", Ev.drawCall 1 2]
    ∧ (missingDepState.update 1).2.2 = none := by
  constructor
  · rfl
  · rfl

/-- Claim C2 (amended).  A `MissingResourceError` raised while resolving a
runtime system's dependencies during a frame is caught by that system's
`try/catch` inside `update` (line 302 sits inside the `try`): it is logged,
that system's `update` function is not invoked, the remaining systems still
run in the same frame, the system list is unchanged, and the only error that
can propagate out of `update` is the render step's. -/
theorem C2_amended_missing_dep_isolated {α : Type} (st : GameSystems α)
    (dt : Int) (pre post : List (RuntimeSystem α)) (X : RuntimeSystem α)
    (st1 : GameSystems α) (tr1 : List (Ev α)) (e : EngineError)
    (hinit : st.initialized = true)
    (hrs : st.runtimeSystems = pre ++ X :: post)
    (hpre : runSystemsGo pre st dt = (st1, tr1))
    (hdep : st1.getDependencies X.dependencies = Except.error e) :
    (st.update dt).2.1
      = tr1 ++ Ev.errLog X.name e
          :: ((runSystemsGo post st1 dt).2
              ++ renderEvs (runSystemsGo post st1 dt).1)
    ∧ (st.update dt).2.2 = renderErr (runSystemsGo post st1 dt).1
    ∧ (st.update dt).1.runtimeSystems = st.runtimeSystems := by
  have hstep : runSystemStep st1 X dt = (st1, [Ev.errLog X.name e]) := by
    unfold runSystemStep
    rw [hdep]
  have hgo : runSystemsGo st.runtimeSystems st dt
      = ((runSystemsGo post st1 dt).1,
         tr1 ++ Ev.errLog X.name e :: (runSystemsGo post st1 dt).2) := by
    rw [hrs, runSystemsGo_append dt pre (X :: post) st, hpre]
    rw [show runSystemsGo (X :: post) st1 dt
        = ((runSystemsGo post (runSystemStep st1 X dt).1 dt).1,
           (runSystemStep st1 X dt).2
             ++ (runSystemsGo post (runSystemStep st1 X dt).1 dt).2)
       from rfl, hstep]
    simp
  rw [update_unfold st dt hinit, hgo]
  refine ⟨?_, rfl, ?_⟩
  · simp [List.append_assoc]
  · have h1 := runSystemsGo_runtimeSystems dt post st1
    have h2 := runSystemsGo_runtimeSystems dt pre st
    rw [hpre] at h2
    rw [h1, h2]

/-- Witness for `C2_amended_missing_dep_isolated` at the concrete state
`missingDepState` with `pre = []`, `X = ghostSystem`, `post = [afterSystem]`. -/
theorem C2_amended_witness :
    (missingDepState.initialized = true
      ∧ missingDepState.runtimeSystems = [] ++ ghostSystem :: [afterSystem]
      ∧ runSystemsGo [] missingDepState 1 = (missingDepState, [])
      ∧ missingDepState.getDependencies ghostSystem.dependencies
          = Except.error (EngineError.resourceNotAvailable "ghost"))
    ∧ ((missingDepState.update 1).2.1
        = [] ++ Ev.errLog ghostSystem.name (EngineError.resourceNotAvailable "ghost")
            :: ((runSystemsGo [afterSystem] missingDepState 1).2
                ++ renderEvs (runSystemsGo [afterSystem] missingDepState 1).1)
      ∧ (missingDepState.update 1).2.2
          = renderErr (runSystemsGo [afterSystem] missingDepState 1).1
      ∧ (missingDepState.update 1).1.runtimeSystems
          = missingDepState.runtimeSystems) :=
  ⟨⟨rfl, rfl, rfl, rfl⟩,
   C2_amended_missing_dep_isolated missingDepState 1 [] [afterSystem] ghostSystem
     missingDepState [] (EngineError.resourceNotAvailable "ghost")
     rfl rfl rfl rfl⟩

/-- Claim C4 (confirmed).  If a runtime system `X`'s update throws during a
frame, the error is caught and logged by the per-system handler, every
system after `X` in priority order still runs in that same frame, the
runtime-system list is unchanged (so `X` is invoked again on the next
frame), and the only error that can propagate out of `update` is the render
step's, not `X`'s. -/
theorem C4_runtime_fail_soft {α : Type} (st : GameSystems α) (dt : Int)
    (pre post : List (RuntimeSystem α)) (X : RuntimeSystem α)
    (st1 : GameSystems α) (tr1 : List (Ev α)) (deps : List (String × α))
    (e : EngineError)
    (hinit : st.initialized = true)
    (hrs : st.runtimeSystems = pre ++ X :: post)
    (hpre : runSystemsGo pre st dt = (st1, tr1))
    (hdeps : st1.getDependencies X.dependencies = Except.ok deps)
    (hfail : X.update st1.world deps dt = Except.error e) :
    (st.update dt).2.1
      = tr1 ++ Ev.systemRun X.name :: Ev.errLog X.name e
          :: ((runSystemsGo post st1 dt).2
              ++ renderEvs (runSystemsGo post st1 dt).1)
    ∧ (st.update dt).2.2 = renderErr (runSystemsGo post st1 dt).1
    ∧ (st.update dt).1.runtimeSystems = st.runtimeSystems
    ∧ X ∈ (st.update dt).1.runtimeSystems := by
  have hstep : runSystemStep st1 X dt = (st1, [Ev.systemRun X.name, Ev.errLog X.name e]) := by
    unfold runSystemStep
    simp only [hdeps]
    rw [hfail]
  have hgo : runSystemsGo st.runtimeSystems st dt
      = ((runSystemsGo post st1 dt).1,
         tr1 ++ Ev.systemRun X.name :: Ev.errLog X.name e
           :: (runSystemsGo post st1 dt).2) := by
    rw [hrs, runSystemsGo_append dt pre (X :: post) st, hpre]
    rw [show runSystemsGo (X :: post) st1 dt
        = ((runSystemsGo post (runSystemStep st1 X dt).1 dt).1,
           (runSystemStep st1 X dt).2
             ++ (runSystemsGo post (runSystemStep st1 X dt).1 dt).2)
       from rfl, hstep]
    simp
  have hlist : (st.update dt).1.runtimeSystems = st.runtimeSystems := by
    rw [update_unfold st dt hinit, hgo]
    have h1 := runSystemsGo_runtimeSystems dt post st1
    have h2 := runSystemsGo_runtimeSystems dt pre st
    rw [hpre] at h2
    rw [h1, h2]
  refine ⟨?_, ?_, hlist, ?_⟩
  · rw [update_unfold st dt hinit, hgo]
    simp [List.append_assoc]
  · rw [update_unfold st dt hinit, hgo]
  · rw [hlist, hrs]
    exact List.mem_append_right pre (List.mem_cons_self X post)

/-- Witness for `C4_runtime_fail_soft` at the concrete state `throwingState`
with `pre = []`, `X = throwingSystem`, `post = [afterSystem]`. -/
theorem C4_witness :
    (throwingState.initialized = true
      ∧ throwingState.runtimeSystems = [] ++ throwingSystem :: [afterSystem]
      ∧ runSystemsGo [] throwingState 1 = (throwingState, [])
      ∧ throwingState.getDependencies throwingSystem.dependencies = Except.ok []
      ∧ throwingSystem.update throwingState.world [] 1
          = Except.error (EngineError.userError "boom"))
    ∧ ((throwingState.update 1).2.1
        = [] ++ Ev.systemRun throwingSystem.name
            :: Ev.errLog throwingSystem.name (EngineError.userError "boom")
            :: ((runSystemsGo [afterSystem] throwingState 1).2
                ++ renderEvs (runSystemsGo [afterSystem] throwingState 1).1)
      ∧ (throwingState.update 1).2.2
          = renderErr (runSystemsGo [afterSystem] throwingState 1).1
      ∧ (throwingState.update 1).1.runtimeSystems = throwingState.runtimeSystems
      ∧ throwingSystem ∈ (throwingState.update 1).1.runtimeSystems) :=
  ⟨⟨rfl, rfl, rfl, rfl, rfl⟩,
   C4_runtime_fail_soft throwingState 1 [] [afterSystem] throwingSystem
     throwingState [] [] (EngineError.userError "boom")
     rfl rfl rfl rfl rfl⟩

/-- Claim C3 (confirmed).  Registering any batch of runtime systems in any
order on a fresh orchestrator leaves the runtime-system list sorted in
ascending priority (re-sorted stably at each registration); systems of any
equal priority `p` keep their registration order (the priority-`p`
subsequence of the final list is exactly the priority-`p` subsequence of the
registration sequence); and a frame pass over the resulting list that runs
every update (no per-system failure) invokes the updates exactly in that
list order. -/
theorem C3_priority_schedule {α : Type} (w : α) (regs : List (RuntimeSystem α))
    (p : Int) (dt : Int) (st' : GameSystems α)
    (hclean : ((runSystemsGo (regAll regs (GameSystems.new w)).runtimeSystems st' dt).2).all
        isSystemRunEv = true) :
    (regAll regs (GameSystems.new w)).runtimeSystems.Pairwise
        (fun a b => a.priority ≤ b.priority)
    ∧ (regAll regs (GameSystems.new w)).runtimeSystems.filter
          (fun s => s.priority == p)
        = regs.filter (fun s => s.priority == p)
    ∧ (runSystemsGo (regAll regs (GameSystems.new w)).runtimeSystems st' dt).2
        = (regAll regs (GameSystems.new w)).runtimeSystems.map
            (fun s => Ev.systemRun s.name) := by
  have hnew1 : (GameSystems.new w).initialized = false := rfl
  have hnew2 : (GameSystems.new w).runtimeSystems.Pairwise
      (fun a b => a.priority ≤ b.priority) := by
    simp [GameSystems.new]
  refine ⟨(regAll_props p regs (GameSystems.new w) hnew1 hnew2).2.1, ?_, ?_⟩
  · have h := (regAll_props p regs (GameSystems.new w) hnew1 hnew2).2.2
    simpa [GameSystems.new] using h
  · exact runSystemsGo_all_runs dt _ st' hclean

/-- Witness for `C3_priority_schedule`: systems b(5), a(1), c(5) registered
in that order end up scheduled as a, b, c — ascending priority with the tie
between b and c broken by registration order — and one frame invokes them in
exactly that order. -/
theorem C3_witness :
    ((runSystemsGo (regAll regsFixture (GameSystems.new 0)).runtimeSystems
        (GameSystems.new 0) 1).2).all isSystemRunEv = true
    ∧ ((regAll regsFixture (GameSystems.new 0)).runtimeSystems.Pairwise
          (fun a b => a.priority ≤ b.priority)
      ∧ (regAll regsFixture (GameSystems.new 0)).runtimeSystems.filter
            (fun s => s.priority == (5 : Int))
          = regsFixture.filter (fun s => s.priority == (5 : Int))
      ∧ (runSystemsGo (regAll regsFixture (GameSystems.new 0)).runtimeSystems
            (GameSystems.new 0) 1).2
          = (regAll regsFixture (GameSystems.new 0)).runtimeSystems.map
              (fun s => Ev.systemRun s.name)) :=
  ⟨rfl, C3_priority_schedule 0 regsFixture 5 1 (GameSystems.new 0) rfl⟩

/-- Claim C5 (confirmed).  If, during `init`, the `init` function of a setup
system `s2` throws after every setup system before it ran successfully, then
every earlier setup system is in the `completed` set, `init` rejects with
`SetupSystemError(s2.name, cause)`, no setup system after `s2` is ever
invoked (the trace ends at `s2`'s invocation), the `initialized` flag stays
false and the frame loop is never started. -/
theorem C5_setup_fail_fast {α : Type} (st : GameSystems α) (cfg : α)
    (pre post : List (SetupSystem α)) (s2 : SetupSystem α)
    (rs' : List (String × Resource α)) (ftr : List (Ev α))
    (st2 : GameSystems α) (c2 ip2 : List String) (tr2 : List (Ev α))
    (deps : List (String × α)) (e : EngineError)
    (hinit : st.initialized = false)
    (hstarted : st.started = false)
    (hsetups : st.setupSystems = pre ++ s2 :: post)
    (hph1 : runFactories st.resources cfg = (rs', ftr, none))
    (hpre : runSetupsGo pre { st with gameConfig := some cfg, resources := rs' }
        [] [] cfg = (st2, c2, ip2, tr2, none))
    (hnotc : c2.contains s2.name = false)
    (hnotip : ip2.contains s2.name = false)
    (hdepsreg : s2.dependencies.find? (fun d2 => !(mapHas st2.resources d2)) = none)
    (hres : st2.getDependencies s2.dependencies = Except.ok deps)
    (hfail : s2.init st2.world deps cfg = Except.error e) :
    st.init cfg = (st2, ftr ++ (tr2 ++ [Ev.setupRun s2.name]),
                   some (EngineError.setupFailed s2.name e))
    ∧ (∀ s ∈ pre, s.name ∈ c2)
    ∧ st2.initialized = false
    ∧ st2.started = false := by
  have hstep : runSetupSystem st2 s2 c2 ip2 cfg
      = (st2, c2, (ip2 ++ [s2.name]).erase s2.name, [Ev.setupRun s2.name],
         some (EngineError.setupFailed s2.name e)) := by
    unfold runSetupSystem
    rw [if_neg (by rw [hnotc]; simp), if_neg (by rw [hnotip]; simp), hdepsreg]
    simp only [hres]
    rw [hfail]
  have hcons := runSetupsGo_cons_err cfg s2 post st2 c2 ip2 st2 c2
      ((ip2 ++ [s2.name]).erase s2.name) [Ev.setupRun s2.name]
      (EngineError.setupFailed s2.name e) hstep
  have happ := runSetupsGo_append_ok cfg pre (s2 :: post)
      { st with gameConfig := some cfg, resources := rs' } [] [] st2 c2 ip2 tr2
      st2 c2 ((ip2 ++ [s2.name]).erase s2.name) [Ev.setupRun s2.name]
      (some (EngineError.setupFailed s2.name e)) hpre hcons
  have hinitflag : st2.initialized = false := by
    have h := runSetupsGo_initialized cfg pre
      { st with gameConfig := some cfg, resources := rs' } [] []
    rw [hpre] at h
    exact h.trans hinit
  have hstartflag : st2.started = false := by
    have h := runSetupsGo_started cfg pre
      { st with gameConfig := some cfg, resources := rs' } [] []
    rw [hpre] at h
    exact h.trans hstarted
  refine ⟨?_, runSetupsGo_ok_mem cfg pre _ [] [] st2 c2 ip2 tr2 hpre,
    hinitflag, hstartflag⟩
  unfold GameSystems.init
  rw [if_neg (by simp [hinit])]
  simp only [hph1]
  rw [hsetups] at happ ⊢
  simp only [happ]

/-- Witness for `C5_setup_fail_fast`: on `failingSetupState`, `init(7)` runs
s1, fails at s2 and never reaches s3. -/
theorem C5_witness :
    (failingSetupState.initialized = false
      ∧ failingSetupState.started = false
      ∧ failingSetupState.setupSystems = [setupOk] ++ setupFailing :: [setupNever]
      ∧ runFactories failingSetupState.resources 7 = ([], [], none)
      ∧ runSetupsGo [setupOk]
          { failingSetupState with gameConfig := some 7, resources := [] } [] [] 7
          = (failingSetupMid, ["s1"], [], [Ev.setupRun "s1"], none)
      ∧ (["s1"] : List String).contains setupFailing.name = false
      ∧ ([] : List String).contains setupFailing.name = false
      ∧ setupFailing.dependencies.find?
          (fun d2 => !(mapHas failingSetupMid.resources d2)) = none
      ∧ failingSetupMid.getDependencies setupFailing.dependencies = Except.ok []
      ∧ setupFailing.init failingSetupMid.world [] 7
          = Except.error (EngineError.userError "setup-boom"))
    ∧ (failingSetupState.init 7
        = (failingSetupMid,
           [] ++ ([Ev.setupRun "s1"] ++ [Ev.setupRun setupFailing.name]),
           some (EngineError.setupFailed setupFailing.name
             (EngineError.userError "setup-boom")))
      ∧ (∀ s ∈ [setupOk], s.name ∈ (["s1"] : List String))
      ∧ failingSetupMid.initialized = false
      ∧ failingSetupMid.started = false) :=
  ⟨⟨rfl, rfl, rfl, rfl, rfl, rfl, rfl, rfl, rfl, rfl⟩,
   C5_setup_fail_fast failingSetupState 7 [setupOk] [setupNever] setupFailing
     [] [] failingSetupMid ["s1"] [] [Ev.setupRun "s1"] []
     (EngineError.userError "setup-boom")
     rfl rfl rfl rfl rfl rfl rfl rfl rfl rfl⟩

/-- Claim C6 (confirmed).  During `init`, when the factory phase succeeds, the
factories present in the registry are invoked exactly once each, in
registry-insertion order, with the game config as argument (the phase-1
trace is exactly the insertion-ordered list of factory-backed entries, and
each such entry's invocation appears exactly once), and all of phase 1
precedes every setup-system invocation in `init`'s trace (which continues
only with setup-run events). -/
theorem C6_factory_phase {α : Type} [DecidableEq α] (st : GameSystems α)
    (cfg : α) (rs' : List (String × Resource α)) (ftr : List (Ev α))
    (hnd : (st.resources.map Prod.fst).Nodup)
    (hinit : st.initialized = false)
    (hph1 : runFactories st.resources cfg = (rs', ftr, none)) :
    ftr = (st.resources.filter (fun q => q.2.factory.isSome)).map
        (fun q => Ev.factoryRun q.1 cfg)
    ∧ (∀ n r, (n, r) ∈ st.resources → r.factory.isSome = true →
        ftr.count (Ev.factoryRun n cfg) = 1)
    ∧ (∃ stF str err, st.init cfg = (stF, ftr ++ str, err)
        ∧ str.all isSetupRunEv = true) := by
  refine ⟨runFactories_ok_trace cfg _ _ _ hph1,
    fun n r hmem hsome => runFactories_count_one cfg _ rs' ftr n r hnd hmem hsome hph1,
    ?_⟩
  rcases hgo : runSetupsGo st.setupSystems
      { st with gameConfig := some cfg, resources := rs' } [] [] cfg
    with ⟨stG, cG, ipG, strG, eG⟩
  have htr := runSetupsGo_trace cfg st.setupSystems
    { st with gameConfig := some cfg, resources := rs' } [] []
  rw [hgo] at htr
  cases eG with
  | some e2 =>
    refine ⟨stG, strG, some e2, ?_, htr⟩
    unfold GameSystems.init
    rw [if_neg (by simp [hinit])]
    simp only [hph1]
    simp only [hgo]
  | none =>
    refine ⟨{ stG with initialized := true, started := true }, strG, none, ?_, htr⟩
    unfold GameSystems.init
    rw [if_neg (by simp [hinit])]
    simp only [hph1]
    simp only [hgo]

/-- Witness for `C6_factory_phase`: on `factoryState`, `init(7)` runs the
`alpha` and `gamma` factories once each in insertion order (skipping the
factory-less `beta`) and only then runs the setup system. -/
theorem C6_witness :
    ((factoryState.resources.map Prod.fst).Nodup
      ∧ factoryState.initialized = false
      ∧ runFactories factoryState.resources 7
          = ([("alpha", ⟨some alphaFactory, some 8⟩),
              ("beta", ⟨none, some 5⟩),
              ("gamma", ⟨some gammaFactory, some 14⟩)],
             [Ev.factoryRun "alpha" 7, Ev.factoryRun "gamma" 7], none))
    ∧ ([Ev.factoryRun "alpha" 7, Ev.factoryRun "gamma" 7]
        = (factoryState.resources.filter (fun q => q.2.factory.isSome)).map
            (fun q => Ev.factoryRun q.1 7)
      ∧ (∀ n r, (n, r) ∈ factoryState.resources → r.factory.isSome = true →
          ([Ev.factoryRun "alpha" 7, Ev.factoryRun "gamma" 7] :
              List (Ev Nat)).count (Ev.factoryRun n 7) = 1)
      ∧ (∃ stF str err, factoryState.init 7
            = (stF, [Ev.factoryRun "alpha" 7, Ev.factoryRun "gamma" 7] ++ str, err)
          ∧ str.all isSetupRunEv = true)) :=
  ⟨⟨by decide, rfl, rfl⟩,
   C6_factory_phase factoryState 7
     [("alpha", ⟨some alphaFactory, some 8⟩), ("beta", ⟨none, some 5⟩),
      ("gamma", ⟨some gammaFactory, some 14⟩)]
     [Ev.factoryRun "alpha" 7, Ev.factoryRun "gamma" 7]
     (by decide) rfl rfl⟩

/-- Claim C7 (confirmed).  The method `emit` invokes exactly the snapshot of the
subscriber list taken at the start of the call, in order, each listener with
the payload — regardless of what the listener bodies do to the bus
(unsubscribing themselves or others, subscribing new listeners, throwing) —
and a listener id not in that snapshot (e.g. one subscribed during the
emission) is never invoked in this emission. -/
theorem C7_emit_snapshot {α : Type} (st : GameSystems α)
    (B : Nat → List BusAction) (ev : String) (d : α) (lid : Nat)
    (hnew : lid ∉ (mapGet st.eventListeners ev).getD []) :
    (st.emit B ev d).2
      = ((mapGet st.eventListeners ev).getD []).map (fun l => (l, d))
    ∧ ∀ x : α, (lid, x) ∉ (st.emit B ev d).2 := by
  have htr : (st.emit B ev d).2
      = ((mapGet st.eventListeners ev).getD []).map (fun l => (l, d)) := by
    unfold GameSystems.emit
    by_cases hh : mapHas st.eventListeners ev = true
    · rw [if_pos hh]
      exact emitGo_trace B d _ st
    · rw [if_neg hh]
      rw [mapHas_eq_isSome] at hh
      cases hget : mapGet st.eventListeners ev with
      | none => rfl
      | some ls => rw [hget] at hh; simp at hh
  refine ⟨htr, fun x hx => ?_⟩
  rw [htr] at hx
  obtain ⟨l, hl, hle⟩ := List.mem_map.mp hx
  have hl2 : l = lid := by
    have := congrArg Prod.fst hle
    simpa using this
  rw [hl2] at hl
  exact hnew hl

/-- Witness for `C7_emit_snapshot`: listeners 1, 2, 3 subscribed to `tick`;
listener 2 unsubscribes itself and 3 and subscribes 9 mid-emission; all of
1, 2, 3 are still invoked with the payload, and 9 is not. -/
theorem C7_witness :
    (9 : Nat) ∉ (mapGet busState.eventListeners "tick").getD []
    ∧ ((busState.emit busBehaviors "tick" 42).2
        = ((mapGet busState.eventListeners "tick").getD []).map (fun l => (l, 42))
      ∧ ∀ x : Nat, (9, x) ∉ (busState.emit busBehaviors "tick" 42).2) :=
  ⟨by decide, C7_emit_snapshot busState busBehaviors "tick" 42 9 (by decide)⟩

/-- Claim C8 (confirmed).  Once `initialized` is set, all three registration
functions throw their `LifecycleError` and return without touching the
registries, for every name and configuration argument. -/
theorem C8_register_after_init {α : Type} (st : GameSystems α) (name : String)
    (factory : α → Except EngineError α)
    (init2 : α → List (String × α) → α → Except EngineError α)
    (upd : α → List (String × α) → Int → Except EngineError α)
    (deps : List String) (prio : Int)
    (hinit : st.initialized = true) :
    st.registerResource name factory
        = (st, some (EngineError.cannotRegisterResource name))
    ∧ st.registerSetup name init2 deps
        = (st, some (EngineError.cannotRegisterSetup name))
    ∧ st.registerSystem name upd deps prio
        = (st, some (EngineError.cannotRegisterSystem name)) := by
  unfold GameSystems.registerResource GameSystems.registerSetup
    GameSystems.registerSystem
  rw [hinit]
  exact ⟨rfl, rfl, rfl⟩

/-- Witness for `C8_register_after_init` on the initialized state
`emptyInitialized`. -/
theorem C8_witness :
    emptyInitialized.initialized = true
    ∧ (emptyInitialized.registerResource "x" (fun c => Except.ok c)
        = (emptyInitialized, some (EngineError.cannotRegisterResource "x"))
      ∧ emptyInitialized.registerSetup "x" (fun w _ _ => Except.ok w) []
        = (emptyInitialized, some (EngineError.cannotRegisterSetup "x"))
      ∧ emptyInitialized.registerSystem "x" (fun w _ _ => Except.ok w) [] 3
        = (emptyInitialized, some (EngineError.cannotRegisterSystem "x"))) :=
  ⟨rfl, C8_register_after_init emptyInitialized "x" (fun c => Except.ok c)
    (fun w _ _ => Except.ok w) (fun w _ _ => Except.ok w) [] 3 rfl⟩

/-- Claim C9 (confirmed).  The method `addResource(name, instance)` raises
`DuplicateResourceError` exactly when the registry already holds a non-null
instance under `name` and `name` is not `eventBus`; in the `eventBus` case
and whenever no non-null instance exists, it succeeds and stores
`{ factory: null, instance }` under `name`. -/
theorem C9_addResource_duplicate_iff {α : Type} (st : GameSystems α)
    (name : String) (inst : α) :
    ((hasInstance (mapGet st.resources name) = true ∧ name ≠ "eventBus") →
        st.addResource name inst
          = (st, some (EngineError.duplicateResource name)))
    ∧ ((st.addResource name inst).2 = some (EngineError.duplicateResource name)
        ↔ hasInstance (mapGet st.resources name) = true ∧ name ≠ "eventBus")
    ∧ (¬(hasInstance (mapGet st.resources name) = true ∧ name ≠ "eventBus") →
        st.addResource name inst
          = ({ st with resources := mapSet st.resources name ⟨none, some inst⟩ },
             none)) := by
  have hcond : (mapHas st.resources name && hasInstance (mapGet st.resources name))
      = hasInstance (mapGet st.resources name) := by
    rw [mapHas_eq_isSome]
    cases mapGet st.resources name <;> simp [hasInstance]
  unfold GameSystems.addResource
  rw [hcond]
  by_cases hinst : hasInstance (mapGet st.resources name) = true
  · rw [if_pos hinst]
    by_cases hnb : name = "eventBus"
    · rw [if_neg (not_not_intro hnb)]
      refine ⟨fun h => absurd hnb h.2, ?_, fun _ => rfl⟩
      simp [hnb]
    · rw [if_pos hnb]
      refine ⟨fun _ => rfl, ?_, fun h => absurd ⟨hinst, hnb⟩ h⟩
      simp [hinst, hnb]
  · rw [if_neg hinst]
    refine ⟨fun h => absurd h.1 hinst, ?_, fun _ => rfl⟩
    constructor
    · intro h
      simp at h
    · intro h
      exact absurd h.1 hinst

/-- Witness for `C9_addResource_duplicate_iff` at the state
`missingDepState`, which holds a non-null `renderer` instance. -/
theorem C9_witness :
    ((hasInstance (mapGet missingDepState.resources "renderer") = true
        ∧ "renderer" ≠ "eventBus") →
      missingDepState.addResource "renderer" 7
        = (missingDepState, some (EngineError.duplicateResource "renderer")))
    ∧ ((missingDepState.addResource "renderer" 7).2
          = some (EngineError.duplicateResource "renderer")
        ↔ hasInstance (mapGet missingDepState.resources "renderer") = true
          ∧ "renderer" ≠ "eventBus")
    ∧ (¬(hasInstance (mapGet missingDepState.resources "renderer") = true
          ∧ "renderer" ≠ "eventBus") →
        missingDepState.addResource "renderer" 7
          = ({ missingDepState with
                resources := mapSet missingDepState.resources "renderer"
                  ⟨none, some 7⟩ }, none)) :=
  C9_addResource_duplicate_iff missingDepState "renderer" 7

/-- Claim C10 (confirmed).  For a name registered with a factory whose
instance is still null, a direct `addResource` succeeds and replaces the
entry with `{ factory: null, instance }`; the originally registered factory
is dropped, so the subsequent factory phase never invokes a factory for that
name. -/
theorem C10_inject_drops_factory {α : Type} (st : GameSystems α)
    (name : String) (f : α → Except EngineError α) (inst cfg : α)
    (hnd : (st.resources.map Prod.fst).Nodup)
    (hget : mapGet st.resources name = some ⟨some f, none⟩) :
    st.addResource name inst
      = ({ st with resources := mapSet st.resources name ⟨none, some inst⟩ },
         none)
    ∧ mapGet (mapSet st.resources name ⟨none, some inst⟩) name
        = some ⟨none, some inst⟩
    ∧ Ev.factoryRun name cfg
        ∉ (runFactories (mapSet st.resources name ⟨none, some inst⟩) cfg).2.1 := by
  refine ⟨?_, mapGet_mapSet_self st.resources name ⟨none, some inst⟩, ?_⟩
  · unfold GameSystems.addResource
    have hcond : (mapHas st.resources name
        && hasInstance (mapGet st.resources name)) = false := by
      rw [mapHas_eq_isSome, hget]
      simp [hasInstance]
    rw [hcond]
    rfl
  · exact runFactories_factoryNone_not_run cfg _ name ⟨none, some inst⟩
      (mapSet_nodup st.resources name ⟨none, some inst⟩ hnd)
      (mapGet_mapSet_self st.resources name ⟨none, some inst⟩) rfl

/-- Witness for `C10_inject_drops_factory`: `droppedFactoryState` registered
a `terrain` factory that has not run; injecting `terrain` directly succeeds,
replaces the entry, and the factory phase never runs a `terrain` factory. -/
theorem C10_witness :
    ((droppedFactoryState.resources.map Prod.fst).Nodup
      ∧ mapGet droppedFactoryState.resources "terrain"
          = some ⟨some alphaFactory, none⟩)
    ∧ (droppedFactoryState.addResource "terrain" 9
        = ({ droppedFactoryState with
              resources := mapSet droppedFactoryState.resources "terrain"
                ⟨none, some 9⟩ }, none)
      ∧ mapGet (mapSet droppedFactoryState.resources "terrain" ⟨none, some 9⟩)
          "terrain" = some ⟨none, some 9⟩
      ∧ Ev.factoryRun "terrain" 7
          ∉ (runFactories
              (mapSet droppedFactoryState.resources "terrain" ⟨none, some 9⟩)
              7).2.1) :=
  ⟨⟨by decide, rfl⟩,
   C10_inject_drops_factory droppedFactoryState "terrain" alphaFactory 9 7
     (by decide) rfl⟩
